import Mathlib

/-!
Shallow embedding of the state-management core of the maputnik-style editor
(`src/src/components/App.jsx`): the mutation pipeline (`onStyleChanged`),
undo/redo (`onUndo`/`onRedo`), the layer-list operators (`onMoveLayer`,
`onLayerDestroy`, `onLayerCopy`, `onLayerVisibilityToggle`), the source
reconciler (`fetchSources` and its fetch-completion callback), and the
keyboard dispatcher (`handleKeyPress`).

JS objects become Lean structures; JS ordered-key objects used as maps
(`state.sources`, `mapStyle.sources`) become association lists preserving
insertion order.  External collaborators that live outside `src/`
(the validator `styleSpec.validate`, the diff-message functions, the
persistence store) are parameters of the embedded operations; side effects
(saves, validations, metadata downloads, issued fetches) are recorded
explicitly in the result so that "never persists", "never validates",
"issues a fetch" are stateable.
-/

set_option autoImplicit false

namespace Editor

/-- A layout property mapping: the `visibility` flag (absent ⇔ the JS object
has no `visibility` key) plus the remaining layout properties. -/
structure Layout where
  visibility : Option String
  rest : List (String × String)
  deriving Repr, DecidableEq

/-- A style layer: `{ id, type, layout?, paint }`.  `layout = none` models a
JS layer object with no `layout` key (`'layout' in layer` false). -/
structure Layer where
  id : String
  tp : String
  layout : Option Layout
  paint : List (String × String)
  deriving Repr, DecidableEq

/-- A declared source: `{ type, url? }`.  `url = none` models a JS source
object with no `url` key (`val.hasOwnProperty("url")` false). -/
structure SourceSpec where
  tp : String
  url : Option String
  deriving Repr, DecidableEq

/-- Derived source metadata (`state.sources[key]`): `{ type, layers: [] }`
created synchronously, `layers` filled by the fetch callback. -/
structure SourceDescriptor where
  tp : String
  layers : List String
  deriving Repr, DecidableEq

/-- The style document (`mapStyle`): ordered layers, declared sources keyed by
name (insertion-ordered association list, as JS object entries), and the two
metadata-affecting root fields compared by the pipeline. -/
structure Doc where
  layers : List Layer
  sources : List (String × SourceSpec)
  glyphs : Option String
  sprite : Option String
  deriving Repr, DecidableEq

def emptyDoc : Doc := { layers := [], sources := [], glyphs := none, sprite := none }

/-- The component state fields the core reads and writes:
`mapStyle`, `errors`, `infos`, `selectedLayerIndex`, `sources`. -/
structure AppState where
  mapStyle : Doc
  errors : List String
  infos : List String
  selectedLayerIndex : Nat
  sources : List (String × SourceDescriptor)
  deriving Repr, DecidableEq

/-- One validation error as returned by `styleSpec.validate`: the pipeline
reads only its `message` field (`errors.map(err => err.message)`). -/
structure VErr where
  message : String
  deriving Repr, DecidableEq

/-- Modelled from the spec: `RevisionStore` (`src/libs/revisions.js` is not
under `src/`) — "keeps an ordered history of accepted document snapshots and
a movable cursor for undo/redo". -/
structure RevisionStore where
  revisions : List Doc
  currentIdx : Nat
  deriving Repr, DecidableEq

/-- Modelled from the spec: the revision at the cursor. -/
def RevisionStore.currentRevision (rs : RevisionStore) : Doc :=
  rs.revisions.getD rs.currentIdx emptyDoc

/-- Modelled from the spec: "`addRevision(doc)`: appends doc as the new head
revision and discards any redo-forward history". -/
def RevisionStore.addRevision (rs : RevisionStore) (d : Doc) : RevisionStore :=
  let kept := rs.revisions.take (rs.currentIdx + 1)
  { revisions := kept ++ [d], currentIdx := kept.length }

/-- Modelled from the spec: "`undo()`: if cursor has a predecessor, move
cursor back, return that revision; else return current unchanged". -/
def RevisionStore.undo (rs : RevisionStore) : RevisionStore × Doc :=
  if 0 < rs.currentIdx then
    let rs' : RevisionStore := { rs with currentIdx := rs.currentIdx - 1 }
    (rs', rs'.currentRevision)
  else
    (rs, rs.currentRevision)

/-- Modelled from the spec: "`redo()`: symmetric" — if the cursor has a
successor, move forward and return that revision, else current unchanged. -/
def RevisionStore.redo (rs : RevisionStore) : RevisionStore × Doc :=
  if rs.currentIdx + 1 < rs.revisions.length then
    let rs' : RevisionStore := { rs with currentIdx := rs.currentIdx + 1 }
    (rs', rs'.currentRevision)
  else
    (rs, rs.currentRevision)

/-- Result of one run of an App operation: the new component state, the
revision store, and an explicit record of the side effects performed —
documents passed to `styleStore.save`, documents passed to
`styleSpec.validate`, arguments of `updateFonts` / `updateIcons`, and
whether `this.fetchSources()` was invoked. -/
structure PipelineResult where
  state : AppState
  revisionStore : RevisionStore
  saved : List Doc
  validated : List Doc
  fontUpdates : List (Option String)
  iconUpdates : List (Option String)
  ranFetchSources : Bool
  deriving Repr, DecidableEq

/-- A run that performed no effect and left everything unchanged (used for
early returns that never reach the pipeline). -/
def noopResult (state : AppState) (rs : RevisionStore) : PipelineResult :=
  { state := state, revisionStore := rs, saved := [], validated := [],
    fontUpdates := [], iconUpdates := [], ranFetchSources := false }

/-- `onStyleChanged(newStyle, save=true)` (App.jsx:238-263): validate; if no
errors, trigger font/icon metadata updates when `glyphs`/`sprite` changed,
append a revision, save (when `save`), set `mapStyle` and clear `errors`;
otherwise set `errors` to the validation messages.  In both cases
`this.fetchSources()` runs at the end.  The validator is the external schema
oracle, passed as the parameter `validate`. -/
def onStyleChanged (validate : Doc → List VErr) (state : AppState)
    (rs : RevisionStore) (newStyle : Doc) (save : Bool) : PipelineResult :=
  let errors := validate newStyle
  if errors.length = 0 then
    { state := { state with mapStyle := newStyle, errors := [] },
      revisionStore := rs.addRevision newStyle,
      saved := if save then [newStyle] else [],
      validated := [newStyle],
      fontUpdates := if newStyle.glyphs ≠ state.mapStyle.glyphs then [newStyle.glyphs] else [],
      iconUpdates := if newStyle.sprite ≠ state.mapStyle.sprite then [newStyle.sprite] else [],
      ranFetchSources := true }
  else
    { state := { state with errors := errors.map (·.message) },
      revisionStore := rs,
      saved := [],
      validated := [newStyle],
      fontUpdates := [],
      iconUpdates := [],
      ranFetchSources := true }

/-- `onLayersChange(changedLayers)` (App.jsx:303-309): wrap the changed layer
list into a candidate document and submit it through the pipeline. -/
def onLayersChange (validate : Doc → List VErr) (state : AppState)
    (rs : RevisionStore) (changedLayers : List Layer) : PipelineResult :=
  onStyleChanged validate state rs { state.mapStyle with layers := changedLayers } true

/-- Modelled from the spec: `style.indexOfLayer` (`src/libs/style.js`, not
under `src/`) "locates the layer by id" — the index of the first layer whose
`id` matches, `none` when absent. -/
def indexOfLayer : List Layer → String → Option Nat
  | [], _ => none
  | l :: rest, layerId =>
    if l.id = layerId then some 0 else (indexOfLayer rest layerId).map (· + 1)

/-- `array.splice(i, 0, x)`: insert `x` at position `i` (an index past the
end appends, as JS splice clamps). -/
def listInsertAt {α : Type _} : List α → Nat → α → List α
  | l, 0, x => x :: l
  | [], _ + 1, x => [x]
  | y :: l, n + 1, x => y :: listInsertAt l n x

/-- `array.splice(i, 1)`: remove the element at position `i` (no-op past the
end). -/
def listRemoveAt {α : Type _} : List α → Nat → List α
  | [], _ => []
  | _ :: l, 0 => l
  | y :: l, n + 1 => y :: listRemoveAt l n

/-- The layer-list computation of `onLayerDestroy` (App.jsx:311-317): find the
layer by id and splice it out.  (The id is always present where the App calls
this; the not-found branch is never exercised and modelled as a no-op.) -/
def onLayerDestroyLayers (layers : List Layer) (layerId : String) : List Layer :=
  match indexOfLayer layers layerId with
  | some i => listRemoveAt layers i
  | none => layers

/-- `onLayerDestroy(layerId)` (App.jsx:311-317): remove the layer and submit
the remaining layers through the pipeline.  Note it never touches
`selectedLayerIndex`. -/
def onLayerDestroy (validate : Doc → List VErr) (state : AppState)
    (rs : RevisionStore) (layerId : String) : PipelineResult :=
  onLayersChange validate state rs (onLayerDestroyLayers state.mapStyle.layers layerId)

/-- The layer-list computation of `onLayerCopy` (App.jsx:319-328): deep-clone
the layer found by id, append `"-copy"` to the clone's id, and
`splice(idx, 0, clonedLayer)` — i.e. insert the clone at the original's
index, pushing the original one position right. -/
def onLayerCopyLayers (layers : List Layer) (layerId : String) : List Layer :=
  match indexOfLayer layers layerId with
  | none => layers
  | some idx =>
    match layers.get? idx with
    | none => layers
    | some orig => listInsertAt layers idx { orig with id := orig.id ++ "-copy" }

/-- `onLayerCopy(layerId)` (App.jsx:319-328) at the App level. -/
def onLayerCopy (validate : Doc → List VErr) (state : AppState)
    (rs : RevisionStore) (layerId : String) : PipelineResult :=
  onLayersChange validate state rs (onLayerCopyLayers state.mapStyle.layers layerId)

/-- The per-layer transform inside `onLayerVisibilityToggle` (App.jsx:335-339):
shallow-copy the layout (`{}` when the layer has no `layout` key), then set
`visibility` to `"visible"` exactly when it was `"none"`, else to `"none"`. -/
def toggleLayerVisibility (layer : Layer) : Layer :=
  let changedLayout :=
    match layer.layout with
    | some l => l
    | none => { visibility := none, rest := [] : Layout }
  let changedLayout :=
    { changedLayout with
      visibility := if changedLayout.visibility == some "none" then some "visible" else some "none" }
  { layer with layout := some changedLayout }

/-- The visibility a renderer reads off a layer: the layout `visibility`
value, defaulting to `"visible"` when the flag or the whole layout is
unset. -/
def effectiveVisibility (layer : Layer) : String :=
  match layer.layout with
  | some l =>
    match l.visibility with
    | some v => v
    | none => "visible"
  | none => "visible"

/-- The layer-list computation of `onLayerVisibilityToggle` (App.jsx:330-342):
replace the layer found by id with its toggled version. -/
def onLayerVisibilityToggleLayers (layers : List Layer) (layerId : String) : List Layer :=
  match indexOfLayer layers layerId with
  | none => layers
  | some idx =>
    match layers.get? idx with
    | none => layers
    | some layer => layers.set idx (toggleLayerVisibility layer)

/-- `onLayerVisibilityToggle(layerId)` (App.jsx:330-342) at the App level. -/
def onLayerVisibilityToggle (validate : Doc → List VErr) (state : AppState)
    (rs : RevisionStore) (layerId : String) : PipelineResult :=
  onLayersChange validate state rs
    (onLayerVisibilityToggleLayers state.mapStyle.layers layerId)

/-- `lodash.clamp(number, lower, upper)`: bound above by `upper` first, then
below by `lower` (so when `lower > upper`, the lower bound wins). -/
def jsClamp (x lower upper : Int) : Int :=
  let y := if x ≤ upper then x else upper
  if lower ≤ y then y else lower

/-- The clamping applied by `onMoveLayer` to both indices:
`clamp(i, 0, layers.length-1)`. -/
def clampIndex (layers : List Layer) (i : Int) : Int :=
  jsClamp i 0 ((layers.length : Int) - 1)

/-- `arrayMove` from react-sortable-hoc (external library): remove the element
at `fromIdx` and re-insert it at `toIdx`. -/
def arrayMove {α : Type _} (l : List α) (fromIdx toIdx : Nat) : List α :=
  match l.get? fromIdx with
  | none => l
  | some x => listInsertAt (listRemoveAt l fromIdx) toIdx x

/-- `onMoveLayer({oldIndex, newIndex})` (App.jsx:285-301): clamp both indices
into `[0, layers.length-1]`, return early when equal; otherwise move the
selection to `newIndex` when `oldIndex` equals it, reorder with `arrayMove`,
and submit through `onLayersChange`. -/
def onMoveLayer (validate : Doc → List VErr) (state : AppState)
    (rs : RevisionStore) (oldIndex newIndex : Int) : PipelineResult :=
  let layers := state.mapStyle.layers
  let oldI := clampIndex layers oldIndex
  let newI := clampIndex layers newIndex
  if oldI = newI then noopResult state rs
  else
    let state' :=
      if oldI = (state.selectedLayerIndex : Int) then
        { state with selectedLayerIndex := newI.toNat }
      else state
    onLayersChange validate state' rs (arrayMove layers oldI.toNat newI.toNat)

/-- `onUndo` (App.jsx:265-273): take the revision returned by the store's
`undo`, compute diff messages against the current document, save it, and set
it as `mapStyle` with the messages as `infos`.  The diff-message function
(`undoMessages`, `src/libs/diffmessage.js`, not under `src/`) is an opaque
parameter. -/
def onUndo (diff : Doc → Doc → List String) (state : AppState)
    (rs : RevisionStore) : PipelineResult :=
  let res := rs.undo
  let activeStyle := res.2
  { state := { state with mapStyle := activeStyle, infos := diff state.mapStyle activeStyle },
    revisionStore := res.1,
    saved := [activeStyle], validated := [],
    fontUpdates := [], iconUpdates := [], ranFetchSources := false }

/-- `onRedo` (App.jsx:275-283): symmetric to `onUndo` with the store's `redo`
and `redoMessages`. -/
def onRedo (diff : Doc → Doc → List String) (state : AppState)
    (rs : RevisionStore) : PipelineResult :=
  let res := rs.redo
  let activeStyle := res.2
  { state := { state with mapStyle := activeStyle, infos := diff state.mapStyle activeStyle },
    revisionStore := res.1,
    saved := [activeStyle], validated := [],
    fontUpdates := [], iconUpdates := [], ranFetchSources := false }

/-- `Object.hasOwnProperty` on an insertion-ordered JS object modelled as an
association list. -/
def hasKey {β : Type _} (m : List (String × β)) (k : String) : Bool :=
  m.any (fun kv => kv.1 == k)

/-- Result of one synchronous run of `fetchSources` (App.jsx:371-427): the new
`state.sources` mapping, the fetch requests issued (source key with the raw
url handed to `fetch`; `normalizeSourceURL` is an external mapbox-gl helper
and not modelled), and whether the final `setState` fired
(`!isEqual(this.state.sources, sourceList)`). -/
structure FetchSourcesResult where
  sources : List (String × SourceDescriptor)
  requests : List (String × String)
  didSetState : Bool
  deriving Repr, DecidableEq

/-- The loop of `fetchSources` over `Object.entries(mapStyle.sources)`
(App.jsx:374-419): skip keys already in the accumulating `sourceList`,
record a pending descriptor `{type, layers: []}` for new keys, and issue a
fetch only when the key is absent from the original `state.sources`, the
source type is `"vector"`, and the source has a `url`. -/
def fetchSourcesGo (origSources : List (String × SourceDescriptor)) :
    List (String × SourceDescriptor) → List (String × String) →
    List (String × SourceSpec) →
    List (String × SourceDescriptor) × List (String × String)
  | sourceList, reqs, [] => (sourceList, reqs)
  | sourceList, reqs, (key, val) :: rest =>
    if hasKey sourceList key then fetchSourcesGo origSources sourceList reqs rest
    else
      let sourceList' := sourceList ++ [(key, { tp := val.tp, layers := [] })]
      let reqs' :=
        match val.url with
        | some u =>
          if !hasKey origSources key && val.tp == "vector" then reqs ++ [(key, u)] else reqs
        | none => reqs
      fetchSourcesGo origSources sourceList' reqs' rest

/-- `fetchSources()` (App.jsx:371-427), synchronous part: start from a copy of
`state.sources`, walk the document's declared sources, and `setState` the new
mapping when it differs. -/
def fetchSources (state : AppState) : FetchSourcesResult :=
  let res := fetchSourcesGo state.sources state.sources [] state.mapStyle.sources
  { sources := res.1, requests := res.2,
    didSetState := decide (state.sources ≠ res.1) }

/-- One entry of a remote TileJSON `vector_layers` array; the callback reads
only its `id`. -/
structure VectorLayerRef where
  id : String
  deriving Repr, DecidableEq

/-- The JSON body of a resolved descriptor fetch: `vector_layers = none`
models a body without a `vector_layers` property
(`!json.hasOwnProperty("vector_layers")`). -/
structure TileJson where
  vector_layers : Option (List VectorLayerRef)
  deriving Repr, DecidableEq

/-- Point update of one key of the descriptor mapping. -/
def updateKey (m : List (String × SourceDescriptor)) (k : String)
    (f : SourceDescriptor → SourceDescriptor) : List (String × SourceDescriptor) :=
  m.map (fun kv => if kv.1 == k then (kv.1, f kv.2) else kv)

/-- Completion of one descriptor fetch for `key` (App.jsx:395-417): on a
rejected fetch, `.catch` only logs — the sources mapping is untouched; on a
body without `vector_layers`, the callback returns early — untouched; on a
body with `vector_layers`, each entry's `id` is pushed onto the descriptor's
`layers` (the code shallow-copies with `Object.assign` and pushes into the
existing array, which observationally appends to the descriptor at `key`). -/
def resolveFetch (currentSources : List (String × SourceDescriptor)) (key : String)
    (result : Except String TileJson) : List (String × SourceDescriptor) :=
  match result with
  | .error _ => currentSources
  | .ok json =>
    match json.vector_layers with
    | none => currentSources
    | some vls =>
      updateKey currentSources key
        (fun d => { d with layers := d.layers ++ vls.map (·.id) })

/-- The undo/redo actions `handleKeyPress` can fire. -/
inductive UndoRedoAction where
  | undoAction
  | redoAction
  deriving Repr, DecidableEq

/-- The fields of a keyboard event read by `handleKeyPress`. -/
structure KeyEvent where
  metaKey : Bool
  shiftKey : Bool
  ctrlKey : Bool
  keyCode : Nat
  deriving Repr, DecidableEq

/-- `handleKeyPress(e)` (App.jsx:191-208): on a Mac host
(`navigator.platform` contains `'MAC'`, the parameter `isMac`),
meta+shift+90 fires redo, else meta+90 fires undo; on other hosts ctrl+90
fires undo, else ctrl+89 fires redo.  The if/else-if chain fires at most one
action, modelled by the `Option` result. -/
def handleKeyPress (isMac : Bool) (e : KeyEvent) : Option UndoRedoAction :=
  if isMac then
    if e.metaKey && e.shiftKey && e.keyCode == 90 then some .redoAction
    else if e.metaKey && e.keyCode == 90 then some .undoAction
    else none
  else
    if e.ctrlKey && e.keyCode == 90 then some .undoAction
    else if e.ctrlKey && e.keyCode == 89 then some .redoAction
    else none

end Editor

namespace Editor

/-- C1 demo validator: always rejects with one error. -/
def rejectAll : Doc → List VErr := fun _ => [⟨"bad style"⟩]

/-- C1 demo state. -/
def demoState : AppState :=
  { mapStyle := emptyDoc, errors := ["earlier error"], infos := ["earlier info"],
    selectedLayerIndex := 0, sources := [] }

/-- C1 demo revision store. -/
def demoStore : RevisionStore := { revisions := [emptyDoc], currentIdx := 0 }

/-- Demo validator: always accepts. -/
def acceptAll : Doc → List VErr := fun _ => []

/-- Demo layer a (no `layout` key). -/
def layerA : Layer := { id := "a", tp := "fill", layout := none, paint := [] }

/-- Demo layer b. -/
def layerB : Layer := { id := "b", tp := "line", layout := none, paint := [] }

/-- Demo layer c. -/
def layerC : Layer := { id := "c", tp := "symbol", layout := none, paint := [] }

/-- Demo layer with an explicit `visibility: "visible"` layout. -/
def visLayer : Layer :=
  { id := "v", tp := "line",
    layout := some { visibility := some "visible", rest := [("line-cap", "round")] },
    paint := [] }

/-- Demo state for destroy: two layers, the last one selected. -/
def destroyDemoState : AppState :=
  { mapStyle := { emptyDoc with layers := [layerA, layerB] },
    errors := [], infos := [], selectedLayerIndex := 1, sources := [] }

/-- Demo state for the move scenario: layers `[a, b, c]`, selection index 1. -/
def moveDemoState : AppState :=
  { mapStyle := { emptyDoc with layers := [layerA, layerB, layerC] },
    errors := [], infos := [], selectedLayerIndex := 1, sources := [] }

/-- Demo state for the reconciliation scenario: one declared vector source
with a url, empty known sources. -/
def fsDemoState : AppState :=
  { mapStyle := { emptyDoc with
      sources := [("s1", { tp := "vector", url := some "https://x/tiles.json" })] },
    errors := [], infos := [], selectedLayerIndex := 0, sources := [] }

end Editor

namespace Editor

/-- C1: if validation of the candidate returns a non-empty error list, the
pipeline run leaves the committed Document unchanged, appends no revision
(the store is untouched), performs no persistence save, replaces the
ErrorState with the validation error messages, and still runs
`fetchSources` before finishing the rejection. -/
theorem rejected_submit_changes_nothing (validate : Doc → List VErr)
    (state : AppState) (rs : RevisionStore) (newStyle : Doc) (save : Bool)
    (h : validate newStyle ≠ []) :
    (onStyleChanged validate state rs newStyle save).state.mapStyle = state.mapStyle ∧
    (onStyleChanged validate state rs newStyle save).revisionStore = rs ∧
    (onStyleChanged validate state rs newStyle save).saved = [] ∧
    (onStyleChanged validate state rs newStyle save).state.errors
      = (validate newStyle).map (·.message) ∧
    (onStyleChanged validate state rs newStyle save).ranFetchSources = true := by
  have hlen : ¬ (validate newStyle).length = 0 := by
    simpa [List.length_eq_zero] using h
  simp [onStyleChanged, hlen]

/-- C1 witness: a concrete rejected submission, checked by evaluation. -/
theorem rejected_submit_changes_nothing_witness :
    rejectAll emptyDoc ≠ [] ∧
    ((onStyleChanged rejectAll demoState demoStore emptyDoc true).state.mapStyle
        = demoState.mapStyle ∧
      (onStyleChanged rejectAll demoState demoStore emptyDoc true).revisionStore = demoStore ∧
      (onStyleChanged rejectAll demoState demoStore emptyDoc true).saved = [] ∧
      (onStyleChanged rejectAll demoState demoStore emptyDoc true).state.errors
        = (rejectAll emptyDoc).map (·.message) ∧
      (onStyleChanged rejectAll demoState demoStore emptyDoc true).ranFetchSources = true) :=
  ⟨by decide, rejected_submit_changes_nothing rejectAll demoState demoStore emptyDoc true
    (by decide)⟩

/-- Helper: the pipeline never touches `selectedLayerIndex`. -/
theorem onStyleChanged_selectedLayerIndex (validate : Doc → List VErr) (state : AppState)
    (rs : RevisionStore) (newStyle : Doc) (save : Bool) :
    (onStyleChanged validate state rs newStyle save).state.selectedLayerIndex
      = state.selectedLayerIndex := by
  by_cases h : (validate newStyle).length = 0 <;> simp [onStyleChanged, h]

/-- Helper: the pipeline never touches `infos`. -/
theorem onStyleChanged_infos (validate : Doc → List VErr) (state : AppState)
    (rs : RevisionStore) (newStyle : Doc) (save : Bool) :
    (onStyleChanged validate state rs newStyle save).state.infos = state.infos := by
  by_cases h : (validate newStyle).length = 0 <;> simp [onStyleChanged, h]

/-- Helper: an accepted submission commits the candidate document. -/
theorem onStyleChanged_accepted_mapStyle (validate : Doc → List VErr) (state : AppState)
    (rs : RevisionStore) (newStyle : Doc) (save : Bool)
    (h : validate newStyle = []) :
    (onStyleChanged validate state rs newStyle save).state.mapStyle = newStyle := by
  simp [onStyleChanged, h]

/-- C8 amended theorem: on every pipeline run, ErrorState is replaced
wholesale with the current validation messages (empty on acceptance), but
InfoState is left untouched — it is not replaced by the pipeline. -/
theorem pipeline_replaces_errors_not_infos (validate : Doc → List VErr) (state : AppState)
    (rs : RevisionStore) (newStyle : Doc) (save : Bool) :
    (onStyleChanged validate state rs newStyle save).state.errors
      = (validate newStyle).map (·.message) ∧
    (onStyleChanged validate state rs newStyle save).state.infos = state.infos := by
  refine ⟨?_, onStyleChanged_infos validate state rs newStyle save⟩
  by_cases h : (validate newStyle).length = 0
  · have h0 : validate newStyle = [] := List.length_eq_zero.mp h
    simp [onStyleChanged, h, h0]
  · simp [onStyleChanged, h]

/-- C8 counterexample: a pipeline run (an accepted submission) leaves
InfoState still holding the message of an earlier run, refuting that "both
ErrorState and InfoState are replaced wholesale" on every run. -/
theorem stale_infos_counterexample :
    demoState.infos = ["earlier info"] ∧
    (onStyleChanged acceptAll demoState demoStore emptyDoc true).state.infos
      = ["earlier info"] := by decide

/-- Helper: inserting always grows the list by one. -/
theorem listInsertAt_length {α : Type _} :
    ∀ (l : List α) (i : Nat) (x : α), (listInsertAt l i x).length = l.length + 1
  | _, 0, _ => by simp [listInsertAt]
  | [], _ + 1, _ => by simp [listInsertAt]
  | y :: l, n + 1, x => by
    simp [listInsertAt, listInsertAt_length l n x]

/-- Helper: the inserted element sits at the insertion index. -/
theorem listInsertAt_get_self {α : Type _} :
    ∀ (l : List α) (i : Nat) (x : α), i ≤ l.length →
      (listInsertAt l i x).get? i = some x
  | _, 0, _, _ => by simp [listInsertAt]
  | [], n + 1, _, h => by simp at h
  | y :: l, n + 1, x, h => by
    simpa [listInsertAt] using listInsertAt_get_self l n x (by simpa using h)

/-- Helper: right after the insertion point comes the old element at that
index. -/
theorem listInsertAt_get_succ {α : Type _} :
    ∀ (l : List α) (i : Nat) (x : α), (listInsertAt l i x).get? (i + 1) = l.get? i
  | _, 0, _ => by simp [listInsertAt]
  | [], n + 1, x => by simp [listInsertAt]
  | y :: l, n + 1, x => by
    simpa [listInsertAt] using listInsertAt_get_succ l n x

/-- Helper: insertion adds the new element to the count. -/
theorem listInsertAt_countP {α : Type _} (p : α → Bool) :
    ∀ (l : List α) (i : Nat) (x : α),
      (listInsertAt l i x).countP p = l.countP p + (if p x then 1 else 0)
  | l, 0, x => by simp [listInsertAt, List.countP_cons]
  | [], n + 1, x => by simp [listInsertAt, List.countP_cons]
  | y :: l, n + 1, x => by
    simp [listInsertAt, List.countP_cons, listInsertAt_countP p l n x]
    omega

/-- Helper: what a successful `indexOfLayer` lookup means. -/
theorem indexOfLayer_some :
    ∀ (layers : List Layer) (layerId : String) (i : Nat),
      indexOfLayer layers layerId = some i →
      i < layers.length ∧ ∃ orig, layers.get? i = some orig ∧ orig.id = layerId
  | [], _, _, h => by simp [indexOfLayer] at h
  | l :: rest, layerId, i, h => by
    by_cases hid : l.id = layerId
    · simp [indexOfLayer, hid] at h
      subst h
      exact ⟨Nat.succ_pos _, l, rfl, hid⟩
    · simp [indexOfLayer, hid] at h
      obtain ⟨j, hj, hji⟩ := h
      obtain ⟨hlt, orig, horig, hido⟩ := indexOfLayer_some rest layerId j hj
      subst hji
      exact ⟨by simpa using Nat.succ_lt_succ hlt, orig, by simpa using horig, hido⟩

/-- C2 counterexample: copying layer `"a"` in `[a, b]` yields
`[a-copy, a, b]` — the copy lands immediately BEFORE the original (index 0,
original at index 1), refuting "placed immediately after (following) the
original layer". -/
theorem copy_after_original_counterexample :
    onLayerCopyLayers [layerA, layerB] "a"
      = [{ layerA with id := "a-copy" }, layerA, layerB] ∧
    ¬ indexOfLayer (onLayerCopyLayers [layerA, layerB] "a") "a-copy"
        = (indexOfLayer (onLayerCopyLayers [layerA, layerB] "a") "a").map (· + 1) := by
  decide

/-- C2 amended theorem: for a layer list containing a layer with id `X`
(first occurrence at `i`) and no layer with id `X-copy`, `copy(X)` yields a
list of length `L+1` containing exactly one layer with id `X-copy`; that
copy is a deep duplicate of the original (only the id changed) placed
immediately BEFORE the original, which now sits at `i+1`. -/
theorem copy_inserts_before_original (layers : List Layer) (X : String) (i : Nat)
    (orig : Layer)
    (h1 : indexOfLayer layers X = some i)
    (h2 : layers.get? i = some orig)
    (h3 : layers.countP (fun l => l.id == X ++ "-copy") = 0) :
    (onLayerCopyLayers layers X).length = layers.length + 1 ∧
    (onLayerCopyLayers layers X).countP (fun l => l.id == X ++ "-copy") = 1 ∧
    (onLayerCopyLayers layers X).get? i = some { orig with id := orig.id ++ "-copy" } ∧
    (onLayerCopyLayers layers X).get? (i + 1) = some orig := by
  obtain ⟨hlt, orig', horig', hido⟩ := indexOfLayer_some layers X i h1
  have horigeq : orig' = orig := by
    rw [h2] at horig'
    exact ((Option.some.injEq _ _).mp horig').symm
  subst horigeq
  have h2g : layers[i]? = some orig' := by
    rw [← List.get?_eq_getElem?]
    exact h2
  have hr : onLayerCopyLayers layers X
      = listInsertAt layers i { orig' with id := orig'.id ++ "-copy" } := by
    simp [onLayerCopyLayers, h1, h2g]
  have hcopyid : ({ orig' with id := orig'.id ++ "-copy" } : Layer).id == X ++ "-copy" := by
    simp [hido]
  refine ⟨?_, ?_, ?_, ?_⟩
  · rw [hr, listInsertAt_length]
  · rw [hr, listInsertAt_countP]
    simp [h3, hcopyid]
  · rw [hr]
    exact listInsertAt_get_self layers i _ (Nat.le_of_lt hlt)
  · rw [hr, listInsertAt_get_succ]
    exact h2

/-- C2 witness: the amended copy theorem applied to `[a, b]`, copying `"a"`. -/
theorem copy_inserts_before_original_witness :
    (indexOfLayer [layerA, layerB] "a" = some 0 ∧
      [layerA, layerB].get? 0 = some layerA ∧
      [layerA, layerB].countP (fun l => l.id == "a" ++ "-copy") = 0) ∧
    ((onLayerCopyLayers [layerA, layerB] "a").length = 3 ∧
      (onLayerCopyLayers [layerA, layerB] "a").countP (fun l => l.id == "a" ++ "-copy") = 1 ∧
      (onLayerCopyLayers [layerA, layerB] "a").get? 0
        = some { layerA with id := layerA.id ++ "-copy" } ∧
      (onLayerCopyLayers [layerA, layerB] "a").get? 1 = some layerA) :=
  ⟨⟨by decide, by decide, by decide⟩,
    copy_inserts_before_original [layerA, layerB] "a" 0 layerA
      (by decide) (by decide) (by decide)⟩

/-- Helper: removing an in-range element shrinks the list by one. -/
theorem listRemoveAt_length {α : Type _} :
    ∀ (l : List α) (i : Nat), i < l.length → (listRemoveAt l i).length = l.length - 1
  | [], _, h => by simp at h
  | _ :: l, 0, _ => by simp [listRemoveAt]
  | y :: l, n + 1, h => by
    have hn : n < l.length := by simpa using h
    have := listRemoveAt_length l n hn
    simp [listRemoveAt, List.length_cons, this]
    omega

/-- C3 counterexample: destroying the last-positioned layer `"b"` while it is
selected (index 1 of `[a, b]`) leaves `selectedLayerIndex = 1` against the
new non-empty list `[a]` of length 1 — the invariant
`selectedLayerIndex < length(layers)` is violated, refuting that the index
is recomputed after every structural change. -/
theorem destroy_dangling_selection_counterexample :
    (onLayerDestroy acceptAll destroyDemoState demoStore "b").state.mapStyle.layers
      = [layerA] ∧
    ¬ (onLayerDestroy acceptAll destroyDemoState demoStore "b").state.selectedLayerIndex
        < (onLayerDestroy acceptAll destroyDemoState demoStore "b").state.mapStyle.layers.length := by
  decide

/-- C3 amended theorem: `onLayerDestroy` never recomputes
`selectedLayerIndex`; in particular, destroying the last-positioned layer
while it is selected (and the removal passing validation) leaves
`selectedLayerIndex` equal to the new list length — one past the last valid
index, dangling. -/
theorem destroy_keeps_selection_unclamped (validate : Doc → List VErr) (state : AppState)
    (rs : RevisionStore) (layerId : String)
    (h1 : indexOfLayer state.mapStyle.layers layerId
        = some (state.mapStyle.layers.length - 1))
    (h2 : state.selectedLayerIndex = state.mapStyle.layers.length - 1)
    (h3 : 0 < state.mapStyle.layers.length)
    (h4 : validate { state.mapStyle with
        layers := onLayerDestroyLayers state.mapStyle.layers layerId } = []) :
    (onLayerDestroy validate state rs layerId).state.selectedLayerIndex
      = state.selectedLayerIndex ∧
    (onLayerDestroy validate state rs layerId).state.selectedLayerIndex
      = (onLayerDestroy validate state rs layerId).state.mapStyle.layers.length := by
  have hsel : (onLayerDestroy validate state rs layerId).state.selectedLayerIndex
      = state.selectedLayerIndex :=
    onStyleChanged_selectedLayerIndex validate state rs _ true
  refine ⟨hsel, ?_⟩
  have hmap : (onLayerDestroy validate state rs layerId).state.mapStyle
      = { state.mapStyle with
          layers := onLayerDestroyLayers state.mapStyle.layers layerId } :=
    onStyleChanged_accepted_mapStyle validate state rs _ true h4
  have hrem : onLayerDestroyLayers state.mapStyle.layers layerId
      = listRemoveAt state.mapStyle.layers (state.mapStyle.layers.length - 1) := by
    simp [onLayerDestroyLayers, h1]
  have hlen : (onLayerDestroyLayers state.mapStyle.layers layerId).length
      = state.mapStyle.layers.length - 1 := by
    rw [hrem, listRemoveAt_length _ _ (by omega)]
  rw [hsel, hmap, h2]
  simp [hlen]

/-- C3 witness: the amended destroy theorem at the concrete two-layer state. -/
theorem destroy_keeps_selection_unclamped_witness :
    (indexOfLayer destroyDemoState.mapStyle.layers "b"
        = some (destroyDemoState.mapStyle.layers.length - 1) ∧
      destroyDemoState.selectedLayerIndex = destroyDemoState.mapStyle.layers.length - 1 ∧
      0 < destroyDemoState.mapStyle.layers.length ∧
      acceptAll { destroyDemoState.mapStyle with
        layers := onLayerDestroyLayers destroyDemoState.mapStyle.layers "b" } = []) ∧
    ((onLayerDestroy acceptAll destroyDemoState demoStore "b").state.selectedLayerIndex
        = destroyDemoState.selectedLayerIndex ∧
      (onLayerDestroy acceptAll destroyDemoState demoStore "b").state.selectedLayerIndex
        = (onLayerDestroy acceptAll destroyDemoState demoStore "b").state.mapStyle.layers.length) :=
  ⟨⟨by decide, by decide, by decide, by decide⟩,
    destroy_keeps_selection_unclamped acceptAll destroyDemoState demoStore "b"
      (by decide) (by decide) (by decide) (by decide)⟩

/-- Helper: lodash clamp lands in `[lower, upper]` when the range is
non-empty. -/
theorem jsClamp_mem (x lower upper : Int) (h : lower ≤ upper) :
    lower ≤ jsClamp x lower upper ∧ jsClamp x lower upper ≤ upper := by
  unfold jsClamp
  dsimp only
  split <;> (try split) <;> omega

/-- Helper: the non-no-op branch of `onMoveLayer` in closed form. -/
theorem onMoveLayer_eq (validate : Doc → List VErr) (state : AppState)
    (rs : RevisionStore) (oldIndex newIndex : Int)
    (hne : clampIndex state.mapStyle.layers oldIndex
      ≠ clampIndex state.mapStyle.layers newIndex) :
    onMoveLayer validate state rs oldIndex newIndex
      = onLayersChange validate
          (if clampIndex state.mapStyle.layers oldIndex = (state.selectedLayerIndex : Int)
           then { state with
              selectedLayerIndex := (clampIndex state.mapStyle.layers newIndex).toNat }
           else state) rs
          (arrayMove state.mapStyle.layers
            (clampIndex state.mapStyle.layers oldIndex).toNat
            (clampIndex state.mapStyle.layers newIndex).toNat) := by
  simp only [onMoveLayer]
  rw [if_neg hne]

/-- C4: `onMoveLayer` clamps both indices into `[0, length-1]` (when the list
is non-empty), is a no-op — state and history untouched, no pipeline run —
when the clamped indices are equal, moves the selection to the clamped
`newIndex` exactly when the clamped `oldIndex` equals the current selection,
and (when the reordered candidate passes validation) commits the
`arrayMove`-reordered layer list. -/
theorem move_clamps_and_follows_selection (validate : Doc → List VErr) (state : AppState)
    (rs : RevisionStore) (oldIndex newIndex : Int) :
    (0 < state.mapStyle.layers.length →
      0 ≤ clampIndex state.mapStyle.layers oldIndex ∧
      clampIndex state.mapStyle.layers oldIndex < (state.mapStyle.layers.length : Int) ∧
      0 ≤ clampIndex state.mapStyle.layers newIndex ∧
      clampIndex state.mapStyle.layers newIndex < (state.mapStyle.layers.length : Int)) ∧
    (clampIndex state.mapStyle.layers oldIndex = clampIndex state.mapStyle.layers newIndex →
      onMoveLayer validate state rs oldIndex newIndex = noopResult state rs) ∧
    (clampIndex state.mapStyle.layers oldIndex ≠ clampIndex state.mapStyle.layers newIndex →
      (onMoveLayer validate state rs oldIndex newIndex).state.selectedLayerIndex
        = (if clampIndex state.mapStyle.layers oldIndex = (state.selectedLayerIndex : Int)
           then (clampIndex state.mapStyle.layers newIndex).toNat
           else state.selectedLayerIndex) ∧
      (validate { state.mapStyle with
          layers := arrayMove state.mapStyle.layers
            (clampIndex state.mapStyle.layers oldIndex).toNat
            (clampIndex state.mapStyle.layers newIndex).toNat } = [] →
        (onMoveLayer validate state rs oldIndex newIndex).state.mapStyle.layers
          = arrayMove state.mapStyle.layers
              (clampIndex state.mapStyle.layers oldIndex).toNat
              (clampIndex state.mapStyle.layers newIndex).toNat)) := by
  refine ⟨?_, ?_, ?_⟩
  · intro h
    have h1 := jsClamp_mem oldIndex 0 ((state.mapStyle.layers.length : Int) - 1) (by omega)
    have h2 := jsClamp_mem newIndex 0 ((state.mapStyle.layers.length : Int) - 1) (by omega)
    unfold clampIndex
    omega
  · intro heq
    simp only [onMoveLayer]
    rw [if_pos heq]
  · intro hne
    rw [onMoveLayer_eq validate state rs oldIndex newIndex hne]
    by_cases hc : clampIndex state.mapStyle.layers oldIndex = (state.selectedLayerIndex : Int)
    · rw [if_pos hc, if_pos hc]
      refine ⟨?_, ?_⟩
      · unfold onLayersChange
        rw [onStyleChanged_selectedLayerIndex]
      · intro hv
        unfold onLayersChange
        rw [onStyleChanged_accepted_mapStyle _ _ _ _ _ hv]
    · rw [if_neg hc, if_neg hc]
      refine ⟨?_, ?_⟩
      · unfold onLayersChange
        rw [onStyleChanged_selectedLayerIndex]
      · intro hv
        unfold onLayersChange
        rw [onStyleChanged_accepted_mapStyle _ _ _ _ _ hv]

/-- C4 witness: the spec scenario — layers `[a, b, c]`, selection index 1,
`move(0, 2)` commits order `[b, c, a]` and the selection index stays 1 (now
pointing at c). -/
theorem move_scenario_witness :
    clampIndex moveDemoState.mapStyle.layers 0 ≠ clampIndex moveDemoState.mapStyle.layers 2 ∧
    (onMoveLayer acceptAll moveDemoState demoStore 0 2).state.selectedLayerIndex = 1 ∧
    (onMoveLayer acceptAll moveDemoState demoStore 0 2).state.mapStyle.layers
      = [layerB, layerC, layerA] := by
  have h := move_clamps_and_follows_selection acceptAll moveDemoState demoStore 0 2
  refine ⟨by decide, ?_, ?_⟩
  · have hs := (h.2.2 (by decide)).1
    rw [hs]
    decide
  · have hl := (h.2.2 (by decide)).2 (by decide)
    rw [hl]
    decide

/-- Helper: the store's `undo` and `redo` only move the cursor — the revision
list itself is untouched. -/
theorem revisionStore_cursor_only (rs : RevisionStore) :
    rs.undo.1.revisions = rs.revisions ∧ rs.redo.1.revisions = rs.revisions := by
  constructor
  · unfold RevisionStore.undo
    split <;> rfl
  · unfold RevisionStore.redo
    split <;> rfl

/-- C5: `onUndo` and `onRedo` append no revision (the stored list is
unchanged) and run no validation; each persists exactly the revision the
store returned, replaces the current document with it, and replaces
InfoState with the diff messages computed between the document before the
move and the document after the move. -/
theorem undo_redo_persist_without_history_or_validation
    (diff : Doc → Doc → List String) (state : AppState) (rs : RevisionStore) :
    ((onUndo diff state rs).revisionStore.revisions = rs.revisions ∧
      (onUndo diff state rs).validated = [] ∧
      (onUndo diff state rs).saved = [rs.undo.2] ∧
      (onUndo diff state rs).state.mapStyle = rs.undo.2 ∧
      (onUndo diff state rs).state.infos = diff state.mapStyle rs.undo.2) ∧
    ((onRedo diff state rs).revisionStore.revisions = rs.revisions ∧
      (onRedo diff state rs).validated = [] ∧
      (onRedo diff state rs).saved = [rs.redo.2] ∧
      (onRedo diff state rs).state.mapStyle = rs.redo.2 ∧
      (onRedo diff state rs).state.infos = diff state.mapStyle rs.redo.2) := by
  have hc := revisionStore_cursor_only rs
  refine ⟨⟨?_, ?_, ?_, ?_, ?_⟩, ⟨?_, ?_, ?_, ?_, ?_⟩⟩ <;>
    simp [onUndo, onRedo, hc.1, hc.2]

/-- Helper: `set` writes the element at the index. -/
theorem listSet_get_self {α : Type _} :
    ∀ (l : List α) (i : Nat) (x : α), i < l.length → (l.set i x).get? i = some x
  | [], _, _, h => by simp at h
  | y :: l, 0, x, _ => by simp
  | y :: l, n + 1, x, h => by
    simpa [List.set] using listSet_get_self l n x (by simpa using h)

/-- Helper: overwriting the same index twice keeps only the second write. -/
theorem listSet_set {α : Type _} :
    ∀ (l : List α) (i : Nat) (x y : α), (l.set i x).set i y = l.set i y
  | [], _, _, _ => rfl
  | a :: l, 0, _, _ => rfl
  | a :: l, n + 1, x, y => by
    simp [List.set, listSet_set l n x y]

/-- Helper: writing back the element already present is the identity. -/
theorem listSet_get_eq_self {α : Type _} :
    ∀ (l : List α) (i : Nat) (x : α), l.get? i = some x → l.set i x = l
  | [], _, _, h => by simp at h
  | a :: l, 0, x, h => by
    have : a = x := by simpa using h
    simp [List.set, this]
  | a :: l, n + 1, x, h => by
    simp [List.set, listSet_get_eq_self l n x (by simpa using h)]

/-- Helper: replacing the found layer with one carrying the same id leaves
`indexOfLayer` unchanged. -/
theorem indexOfLayer_set_same :
    ∀ (l : List Layer) (layerId : String) (i : Nat) (x : Layer),
      indexOfLayer l layerId = some i → x.id = layerId →
      indexOfLayer (l.set i x) layerId = some i
  | [], _, _, _, h, _ => by simp [indexOfLayer] at h
  | a :: l, layerId, i, x, h, hx => by
    by_cases ha : a.id = layerId
    · simp [indexOfLayer, ha] at h
      subst h
      simp [List.set, indexOfLayer, hx]
    · simp [indexOfLayer, ha] at h
      obtain ⟨j, hj, hji⟩ := h
      subst hji
      have ih := indexOfLayer_set_same l layerId j x hj hx
      simp [List.set, indexOfLayer, ha, ih]

/-- Helper: toggling visibility never changes the layer's id. -/
theorem toggleLayerVisibility_id (layer : Layer) :
    (toggleLayerVisibility layer).id = layer.id := by
  simp [toggleLayerVisibility]

/-- C7 counterexample: `layerA` has no `layout` key; toggling its visibility
twice yields a layer with `layout.visibility = "visible"` — NOT structurally
equal to the original layer, refuting the unconditional double-toggle
identity. -/
theorem toggle_twice_not_identity_counterexample :
    ¬ onLayerVisibilityToggleLayers (onLayerVisibilityToggleLayers [layerA] "a") "a"
        = [layerA] := by decide

/-- C7 amended theorem: a single application replaces the found layer with
its toggled version, whose effective visibility flips between `"visible"`
and `"none"` (an unset flag behaving as visible); and when the layer already
carries an explicit two-state `visibility` flag, applying the toggle twice
returns the layer list structurally equal to the original. -/
theorem toggle_visibility_flip (layers : List Layer) (layerId : String) (i : Nat)
    (layer : Layer) (l : Layout)
    (h1 : indexOfLayer layers layerId = some i)
    (h2 : layers.get? i = some layer)
    (h3 : layer.layout = some l)
    (h4 : l.visibility = some "visible" ∨ l.visibility = some "none") :
    (onLayerVisibilityToggleLayers layers layerId).get? i
      = some (toggleLayerVisibility layer) ∧
    effectiveVisibility (toggleLayerVisibility layer)
      = (if effectiveVisibility layer = "none" then "visible" else "none") ∧
    onLayerVisibilityToggleLayers (onLayerVisibilityToggleLayers layers layerId) layerId
      = layers := by
  obtain ⟨hlt, orig', horig', hido⟩ := indexOfLayer_some layers layerId i h1
  have horigeq : orig' = layer := by
    rw [h2] at horig'
    exact ((Option.some.injEq _ _).mp horig').symm
  subst horigeq
  have h2g : layers[i]? = some orig' := by
    rw [← List.get?_eq_getElem?]
    exact h2
  have e1 : onLayerVisibilityToggleLayers layers layerId
      = layers.set i (toggleLayerVisibility orig') := by
    simp [onLayerVisibilityToggleLayers, h1, h2g]
  have htid : (toggleLayerVisibility orig').id = layerId := by
    rw [toggleLayerVisibility_id]
    exact hido
  have hlen1 : i < (layers.set i (toggleLayerVisibility orig')).length := by
    simpa using hlt
  have h1' : indexOfLayer (layers.set i (toggleLayerVisibility orig')) layerId = some i :=
    indexOfLayer_set_same layers layerId i _ h1 htid
  have h2' : (layers.set i (toggleLayerVisibility orig')).get? i
      = some (toggleLayerVisibility orig') :=
    listSet_get_self layers i _ hlt
  have h2g' : (layers.set i (toggleLayerVisibility orig'))[i]?
      = some (toggleLayerVisibility orig') := by
    rw [← List.get?_eq_getElem?]
    exact h2'
  have e2 : onLayerVisibilityToggleLayers (layers.set i (toggleLayerVisibility orig')) layerId
      = (layers.set i (toggleLayerVisibility orig')).set i
          (toggleLayerVisibility (toggleLayerVisibility orig')) := by
    simp [onLayerVisibilityToggleLayers, h1', h2g']
  have hdouble : toggleLayerVisibility (toggleLayerVisibility orig') = orig' := by
    rcases h4 with h4 | h4 <;>
      (cases orig' with
       | mk id tp layout paint =>
         cases l with
         | mk vis rest =>
           simp at h3
           subst h3
           simp at h4
           subst h4
           simp [toggleLayerVisibility])
  refine ⟨?_, ?_, ?_⟩
  · rw [e1]
    exact listSet_get_self layers i _ hlt
  · unfold effectiveVisibility toggleLayerVisibility
    rcases h4 with h4 | h4 <;> simp [h3, h4]
  · rw [e1, e2, listSet_set, hdouble]
    exact listSet_get_eq_self layers i orig' h2

/-- C7 witness: the amended toggle theorem at a one-layer list whose layer
carries an explicit `visibility: "visible"`. -/
theorem toggle_visibility_flip_witness :
    (indexOfLayer [visLayer] "v" = some 0 ∧
      [visLayer].get? 0 = some visLayer ∧
      visLayer.layout = some { visibility := some "visible", rest := [("line-cap", "round")] } ∧
      (({ visibility := some "visible", rest := [("line-cap", "round")] } : Layout).visibility
          = some "visible" ∨
        ({ visibility := some "visible", rest := [("line-cap", "round")] } : Layout).visibility
          = some "none")) ∧
    ((onLayerVisibilityToggleLayers [visLayer] "v").get? 0
        = some (toggleLayerVisibility visLayer) ∧
      effectiveVisibility (toggleLayerVisibility visLayer)
        = (if effectiveVisibility visLayer = "none" then "visible" else "none") ∧
      onLayerVisibilityToggleLayers (onLayerVisibilityToggleLayers [visLayer] "v") "v"
        = [visLayer]) :=
  ⟨⟨by decide, by decide, by decide, Or.inl (by decide)⟩,
    toggle_visibility_flip [visLayer] "v" 0 visLayer
      { visibility := some "visible", rest := [("line-cap", "round")] }
      (by decide) (by decide) (by decide) (Or.inl (by decide))⟩

/-- C9: the keyboard dispatch table — on a Mac host, meta+shift+90 fires redo
and meta (without shift) +90 fires undo; elsewhere ctrl+89 fires redo and
ctrl+90 fires undo; and at most one action fires per key event. -/
theorem keypress_dispatch_table (e : KeyEvent) :
    (handleKeyPress true e = some UndoRedoAction.redoAction
      ↔ (e.metaKey = true ∧ e.shiftKey = true ∧ e.keyCode = 90)) ∧
    (handleKeyPress true e = some UndoRedoAction.undoAction
      ↔ (e.metaKey = true ∧ e.shiftKey = false ∧ e.keyCode = 90)) ∧
    (handleKeyPress false e = some UndoRedoAction.redoAction
      ↔ (e.ctrlKey = true ∧ e.keyCode = 89)) ∧
    (handleKeyPress false e = some UndoRedoAction.undoAction
      ↔ (e.ctrlKey = true ∧ e.keyCode = 90)) ∧
    (∀ isMac : Bool, (handleKeyPress isMac e).toList.length ≤ 1) := by
  obtain ⟨m, s, c, k⟩ := e
  refine ⟨?_, ?_, ?_, ?_, ?_⟩
  · cases m <;> cases s <;> by_cases hk : k = 90 <;> simp [handleKeyPress, hk]
  · cases m <;> cases s <;> by_cases hk : k = 90 <;> simp [handleKeyPress, hk]
  · cases c <;> by_cases hk : k = 90 <;> by_cases hk' : k = 89 <;>
      simp [handleKeyPress, hk, hk']
  · cases c <;> by_cases hk : k = 90 <;> simp [handleKeyPress, hk]
  · intro isMac
    cases h : handleKeyPress isMac ⟨m, s, c, k⟩ <;> simp

/-- C10: a fetch completion whose JSON body lacks `vector_layers` leaves the
source-descriptor state unchanged (silently ignored), and a failed fetch is
swallowed by the catch handler, also leaving the state — and hence any empty
descriptor layer list — unchanged. -/
theorem fetch_completion_silent (sources : List (String × SourceDescriptor)) (key : String) :
    (∀ json : TileJson, json.vector_layers = none →
      resolveFetch sources key (Except.ok json) = sources) ∧
    (∀ err : String, resolveFetch sources key (Except.error err) = sources) := by
  constructor
  · intro json h
    simp [resolveFetch, h]
  · intro err
    simp [resolveFetch]

/-- C10 witness: fetch completions against a concrete pending descriptor. -/
theorem fetch_completion_silent_witness :
    ((TileJson.mk none).vector_layers = none ∧
      resolveFetch [("s1", { tp := "vector", layers := [] })] "s1"
          (Except.ok (TileJson.mk none))
        = [("s1", { tp := "vector", layers := [] })]) ∧
    resolveFetch [("s1", { tp := "vector", layers := [] })] "s1"
        (Except.error "network down")
      = [("s1", { tp := "vector", layers := [] })] :=
  ⟨⟨rfl, (fetch_completion_silent [("s1", { tp := "vector", layers := [] })] "s1").1
      (TileJson.mk none) rfl⟩,
    (fetch_completion_silent [("s1", { tp := "vector", layers := [] })] "s1").2
      "network down"⟩

/-- Helper: every request the reconciliation loop issues (beyond those it was
started with) is for a declared source of vector type carrying that url. -/
theorem fetchSourcesGo_requests :
    ∀ (mapSources : List (String × SourceSpec))
      (origSources sourceList : List (String × SourceDescriptor))
      (reqs : List (String × String)) (k u : String),
      (k, u) ∈ (fetchSourcesGo origSources sourceList reqs mapSources).2 →
      (k, u) ∈ reqs ∨
        ∃ spec, (k, spec) ∈ mapSources ∧ spec.tp = "vector" ∧ spec.url = some u
  | [], _, _, reqs, k, u, h => by
    simp [fetchSourcesGo] at h
    exact Or.inl h
  | (key, val) :: rest, orig, sourceList, reqs, k, u, h => by
    by_cases hk : hasKey sourceList key
    · simp only [fetchSourcesGo, hk, if_true] at h
      rcases fetchSourcesGo_requests rest orig sourceList reqs k u h with h' | ⟨spec, hm, hv, hu⟩
      · exact Or.inl h'
      · exact Or.inr ⟨spec, List.mem_cons_of_mem _ hm, hv, hu⟩
    · cases hurl : val.url with
      | none =>
        simp only [fetchSourcesGo, hk, if_false, hurl] at h
        rcases fetchSourcesGo_requests rest orig _ reqs k u h with h' | ⟨spec, hm, hv, hu⟩
        · exact Or.inl h'
        · exact Or.inr ⟨spec, List.mem_cons_of_mem _ hm, hv, hu⟩
      | some u₀ =>
        by_cases hg : (!hasKey orig key && val.tp == "vector") = true
        · simp only [fetchSourcesGo, hk, if_false, hurl, hg, if_true] at h
          rcases fetchSourcesGo_requests rest orig _ _ k u h with h' | ⟨spec, hm, hv, hu⟩
          · rcases List.mem_append.mp h' with h'' | h''
            · exact Or.inl h''
            · have hkey : k = key ∧ u = u₀ := by
                simpa [Prod.ext_iff] using h''
              have hvec : val.tp = "vector" := by
                have := (Bool.and_eq_true _ _).mp hg
                exact beq_iff_eq.mp this.2
              exact Or.inr ⟨val, by simp [hkey.1], hvec, by rw [hurl, hkey.2]⟩
          · exact Or.inr ⟨spec, List.mem_cons_of_mem _ hm, hv, hu⟩
        · simp only [fetchSourcesGo, hk, if_false, hurl, hg] at h
          rcases fetchSourcesGo_requests rest orig _ _ k u h with h' | ⟨spec, hm, hv, hu⟩
          · exact Or.inl h'
          · exact Or.inr ⟨spec, List.mem_cons_of_mem _ hm, hv, hu⟩

/-- C6: for a document declaring `s1: {type: vector, url}` against empty
known sources, `fetchSources` synchronously records the pending descriptor
`{s1: {type: vector, layers: []}}` and issues exactly the fetch for `s1`;
resolving that fetch with `{vector_layers: [{id: "roads"}]}` updates the
descriptor's layers to `["roads"]`; and in general every issued fetch is for
a declared source of vector type carrying a url. -/
theorem fetch_sources_pending_and_resolution (state state₂ : AppState) (u k u' : String)
    (hsrc : state.sources = [])
    (hdecl : state.mapStyle.sources = [("s1", { tp := "vector", url := some u })]) :
    (fetchSources state).sources = [("s1", { tp := "vector", layers := [] })] ∧
    (fetchSources state).requests = [("s1", u)] ∧
    resolveFetch [("s1", { tp := "vector", layers := [] })] "s1"
        (Except.ok { vector_layers := some [{ id := "roads" }] })
      = [("s1", { tp := "vector", layers := ["roads"] })] ∧
    ((k, u') ∈ (fetchSources state₂).requests →
      ∃ spec, (k, spec) ∈ state₂.mapStyle.sources ∧ spec.tp = "vector" ∧ spec.url = some u') := by
  refine ⟨?_, ?_, ?_, ?_⟩
  · simp [fetchSources, hsrc, hdecl, fetchSourcesGo, hasKey]
  · simp [fetchSources, hsrc, hdecl, fetchSourcesGo, hasKey]
  · decide
  · intro hmem
    have hmem' : (k, u') ∈ (fetchSourcesGo state₂.sources state₂.sources []
        state₂.mapStyle.sources).2 := by
      simpa [fetchSources] using hmem
    rcases fetchSourcesGo_requests state₂.mapStyle.sources state₂.sources state₂.sources
        [] k u' hmem' with h' | h'
    · simp at h'
    · exact h'

/-- C6 witness: the reconciliation theorem at the concrete demo state. -/
theorem fetch_sources_pending_and_resolution_witness :
    (fsDemoState.sources = [] ∧
      fsDemoState.mapStyle.sources
        = [("s1", { tp := "vector", url := some "https://x/tiles.json" })]) ∧
    ((fetchSources fsDemoState).sources = [("s1", { tp := "vector", layers := [] })] ∧
      (fetchSources fsDemoState).requests = [("s1", "https://x/tiles.json")] ∧
      resolveFetch [("s1", { tp := "vector", layers := [] })] "s1"
          (Except.ok { vector_layers := some [{ id := "roads" }] })
        = [("s1", { tp := "vector", layers := ["roads"] })] ∧
      (("s1", "https://x/tiles.json") ∈ (fetchSources fsDemoState).requests →
        ∃ spec, ("s1", spec) ∈ fsDemoState.mapStyle.sources ∧
          spec.tp = "vector" ∧ spec.url = some "https://x/tiles.json")) :=
  ⟨⟨rfl, rfl⟩,
    fetch_sources_pending_and_resolution fsDemoState fsDemoState
      "https://x/tiles.json" "s1" "https://x/tiles.json" rfl rfl⟩

end Editor
